import Mathlib

/-!
Verification development for the chat-tutor pipeline of the
`olvl-purephysics-website` repository.

The repository source provides the HTTP `POST` handler (the completion
orchestrator) directly; the leaf library modules it imports
(`classifyScope`, `chunkText`, `retrieveTopChunksKeyword`,
`buildSystemPrompt`, `buildUserPrompt`, `loadAllMdxDocuments`, the OpenAI
client) are not part of the provided sources, so they are modelled from the
specification, as noted on each definition.  The handler itself is a direct
shallow embedding of the TypeScript route: JavaScript exceptions become
`Except` values, the `try`/`catch` block becomes explicit error matching,
and the external collaborators (request-body parsing, the document loader
and the completion service) become explicit inputs.  The handler result is
paired with the ordered list of pipeline stages that were invoked, so that
short-circuiting behaviour is part of the model.
-/

set_option maxRecDepth 8000

namespace PurePhysics

open List

/-! ### Tokenization (shared by scope classifier and keyword retriever) -/

/-- Modelled from the spec: tokens are "lowercase word-like tokens"; a word
character is a letter or a digit. -/
def isWordChar (c : Char) : Bool := c.isAlpha || c.isDigit

/-- Accumulating tokenizer over a character list.  `acc` holds the current
word (reversed); a non-word character ends the current word. -/
def tokenizeGo : List Char → List Char → List String
  | [], acc => if acc.isEmpty then [] else [String.mk acc.reverse]
  | c :: cs, acc =>
    if isWordChar c then tokenizeGo cs (c.toLower :: acc)
    else if acc.isEmpty then tokenizeGo cs []
    else String.mk acc.reverse :: tokenizeGo cs []

/-- Modelled from the spec: split a string into lowercase word-like tokens. -/
def tokenize (s : String) : List String := tokenizeGo s.data []

/-! ### Scope classifier (`classifyScope` from the h2Scope module) -/

/-- ScopeDecision record: `allowed`, plus the `refusal` text (empty when
allowed). -/
structure ScopeDecision where
  allowed : Bool
  refusal : String
deriving DecidableEq

/-- Modelled from the spec: the fixed, user-facing refusal explanation. -/
def scopeRefusalText : String :=
  "I can only help with H2 Physics questions from the syllabus. Please ask a physics question."

/-- Modelled from the spec: allow-list of in-syllabus terms used by the
heuristic scope gate. -/
def allowTerms : List String :=
  ["physics", "vector", "scalar", "force", "energy", "momentum", "velocity",
   "acceleration", "unit", "units", "measurement", "wave", "field", "charge",
   "current", "kinematics", "dynamics"]

/-- Modelled from the spec: deny-list of obviously out-of-scope terms used
by the heuristic scope gate. -/
def denyTerms : List String :=
  ["pizza", "recipe", "movie", "football", "celebrity"]

/-- Modelled from the spec: `classifyScope` (in `@/lib/scope/h2Scope`, not
among the provided sources) is a pure, synchronous heuristic: empty or
whitespace-only input fails safe (out of scope); otherwise a deny-list hit
refuses, an allow-list hit accepts, and anything else is refused.  When not
allowed, `refusal` carries the fixed user-facing explanation. -/
def classifyScope (message : String) : ScopeDecision :=
  if (tokenize message).isEmpty then ⟨false, scopeRefusalText⟩
  else if (tokenize message).any (fun t => denyTerms.contains t) then
    ⟨false, scopeRefusalText⟩
  else if (tokenize message).any (fun t => allowTerms.contains t) then
    ⟨true, ""⟩
  else ⟨false, scopeRefusalText⟩

/-! ### Chunker (`chunkText` from the chunkMdx module) -/

/-- Chunker configuration, as passed by the handler:
`{ chunkSize, chunkOverlap, sourceLabel }`. -/
structure ChunkConfig where
  chunkSize : Nat
  chunkOverlap : Nat
  sourceLabel : String
deriving DecidableEq

/-- Chunk record: `{ text, sourceLabel, index }`. -/
structure Chunk where
  text : String
  sourceLabel : String
  index : Nat
deriving DecidableEq

/-- Error raised by the chunker on invalid configuration. -/
inductive ChunkError where
  | configurationError (message : String)
deriving DecidableEq

/-- Message carried by a chunker error. -/
def ChunkError.message : ChunkError → String
  | .configurationError m => m

/-- Modelled from the spec: the configuration-error message text. -/
def configurationErrorMessage : String :=
  "chunkOverlap must be smaller than chunkSize"

/-- Sliding-window splitter over a character list.  `size` is the window
width and `sm1 + 1` is the step.  The `fuel` argument makes the recursion
structural; `chunkText` passes the list length, which always suffices
because each recursive call strictly shortens the list. -/
def chunkGo (size sm1 : Nat) : Nat → List Char → List (List Char)
  | _, [] => []
  | 0, _ :: _ => []
  | fuel + 1, c :: cs =>
    if (c :: cs).length ≤ size then [c :: cs]
    else (c :: cs).take size :: chunkGo size sm1 fuel (cs.drop sm1)

/-- Attach source labels and ascending indices (from `i`) to raw pieces. -/
def buildChunks (lbl : String) : Nat → List (List Char) → List Chunk
  | _, [] => []
  | i, p :: ps => ⟨String.mk p, lbl, i⟩ :: buildChunks lbl (i + 1) ps

/-- Modelled from the spec: `chunkText` (in `@/lib/mdx/chunkMdx`, not among
the provided sources) validates `chunkOverlap < chunkSize` (rejecting the
configuration with a `ConfigurationError` otherwise) and then advances a
sliding window of width `chunkSize` stepping by `chunkSize - chunkOverlap`,
the final chunk capturing the tail even when shorter than `chunkSize`;
chunks carry the source label and ascending indices, and empty text yields
no chunks. -/
def chunkText (text : String) (cfg : ChunkConfig) : Except ChunkError (List Chunk) :=
  if cfg.chunkSize ≤ cfg.chunkOverlap then
    .error (.configurationError configurationErrorMessage)
  else
    .ok (buildChunks cfg.sourceLabel 0
      (chunkGo cfg.chunkSize (cfg.chunkSize - cfg.chunkOverlap - 1)
        text.data.length text.data))

/-! ### Keyword retriever (`retrieveTopChunksKeyword`) -/

/-- Modelled from the spec: a chunk's score is the count of query tokens the
chunk's text contains. -/
def scoreChunk (qtoks : List String) (c : Chunk) : Nat :=
  (qtoks.filter (fun t => (tokenize c.text).contains t)).length

/-- Modelled from the spec: `retrieveTopChunksKeyword` (in
`@/lib/mdx/retrieveKeyword`, not among the provided sources) scores every
chunk against the query tokens, keeps only nonzero-scoring chunks (no
padding with irrelevant chunks), sorts them by score descending with a
stable sort (original order preserved on ties), and returns the first `k`;
`k ≤ 0` or an empty collection yields the empty sequence. -/
def retrieveTopChunksKeyword (query : String) (chunks : List Chunk) (k : Int) :
    List Chunk :=
  let qtoks := tokenize query
  let nonzero := chunks.filter (fun c => scoreChunk qtoks c != 0)
  let sorted :=
    nonzero.insertionSort (fun a b => scoreChunk qtoks b ≤ scoreChunk qtoks a)
  sorted.take k.toNat

/-! ### Prompt builder -/

/-- Modelled from the spec: `buildSystemPrompt` returns a fixed instruction
string (persona, scope constraint, grounding requirement). -/
def buildSystemPrompt : String :=
  "You are an H2 Physics tutor. Answer only from the provided syllabus context; do not fabricate."

/-- Modelled from the spec: each retrieved chunk is attributed to its source
label in the prompt. -/
def renderChunk (c : Chunk) : String :=
  "[Source: " ++ c.sourceLabel ++ "]\n" ++ c.text

/-- Modelled from the spec: `buildUserPrompt` concatenates the retrieved
chunks (each attributed to its `sourceLabel`) followed by the literal user
query; when no chunks were retrieved it explicitly states that no relevant
material was found. -/
def buildUserPrompt (query : String) (topChunks : List Chunk) : String :=
  let context :=
    if topChunks.isEmpty then "No relevant syllabus material was found."
    else String.intercalate "\n\n" (topChunks.map renderChunk)
  "Context:\n" ++ context ++ "\n\nQuestion: " ++ query

/-! ### The POST handler (direct embedding of `src/unnamed/part_000`) -/

/-- Message role, per `type ChatMsg` in the route file. -/
inductive Role where
  | user
  | assistant
deriving DecidableEq

/-- Chat message, per `type ChatMsg = \x7b role, content \x7d`. -/
structure ChatMsg where
  role : Role
  content : String
deriving DecidableEq

/-- Loaded document, per the route comment `[\x7b path, text \x7d]`. -/
structure Document where
  path : String
  text : String
deriving DecidableEq

/-- Completion-choice message: `content` may be null/undefined. -/
structure ChoiceMessage where
  content : Option String
deriving DecidableEq

/-- One completion choice: `message` may be absent. -/
structure Choice where
  message : Option ChoiceMessage
deriving DecidableEq

/-- Completion-service response: a list of choices. -/
structure CompletionResp where
  choices : List Choice
deriving DecidableEq

/-- HTTP-level outcome of the handler: `NextResponse.json` (status 200) or a
plain-text response with an explicit status. -/
inductive HandlerResponse where
  | json (status : Nat) (reply : String)
  | text (status : Nat) (body : String)
deriving DecidableEq

/-- Status code of a handler response. -/
def HandlerResponse.status : HandlerResponse → Nat
  | .json s _ => s
  | .text s _ => s

/-- Pipeline stages the handler can invoke after the scope gate. -/
inductive Stage where
  | load
  | chunk
  | retrieve
  | buildSystem
  | buildUser
  | completion
deriving DecidableEq

/-- Embedding of line 16 of the route:
`[...messages].reverse().find((m) => m.role === "user")?.content ?? ""`. -/
def lastUserMessage (messages : List ChatMsg) : String :=
  ((messages.reverse.find? (fun m => m.role == Role.user)).map
    (fun m => m.content)).getD ""

/-- Embedding of line 52 of the route:
`resp.choices[0]?.message?.content ?? "No response."`. -/
def replyOf (resp : CompletionResp) : String :=
  (((resp.choices.head?).bind (fun c => c.message)).bind
    (fun m => m.content)).getD "No response."

/-- Embedding of the `catch` block body: `e?.message ?? "Server error"`. -/
def errBody (e : Option String) : String := e.getD "Server error"

/-- Embedding of lines 28 to 34 of the route: chunk every loaded document
with the fixed configuration `chunkSize = 900`, `chunkOverlap = 120`,
`sourceLabel = d.path`, flattening the results; a thrown chunker error
propagates. -/
def chunkAllDocs : List Document → Except ChunkError (List Chunk)
  | [] => .ok []
  | d :: ds =>
    match chunkText d.text ⟨900, 120, d.path⟩, chunkAllDocs ds with
    | .ok c, .ok cs => .ok (c ++ cs)
    | .error e, _ => .error e
    | .ok _, .error e => .error e

/-- Embedding of the `POST` handler in `src/unnamed/part_000`.  Inputs model
the external collaborators: `parse` is the outcome of `req.json()` (with the
`messages` field optional, per `body.messages ?? []`), `loadResult` the
outcome of `loadAllMdxDocuments()`, and `complete` the completion service,
taking the system and user prompts.  A thrown error is an `.error` whose
optional payload is the exception message.  The result pairs the HTTP
response with the ordered list of downstream stages that ran. -/
def POST (parse : Except (Option String) (Option (List ChatMsg)))
    (loadResult : Except (Option String) (List Document))
    (complete : String → String → Except (Option String) CompletionResp) :
    HandlerResponse × List Stage :=
  match parse with
  | .error e => (.text 500 (errBody e), [])
  | .ok maybeMessages =>
    let messages := maybeMessages.getD []
    let lastUser := lastUserMessage messages
    let scope := classifyScope lastUser
    if !scope.allowed then
      (.json 200 scope.refusal, [])
    else
      match loadResult with
      | .error e => (.text 500 (errBody e), [Stage.load])
      | .ok docs =>
        match chunkAllDocs docs with
        | .error ce => (.text 500 ce.message, [Stage.load, Stage.chunk])
        | .ok chunks =>
          let top := retrieveTopChunksKeyword lastUser chunks 6
          let system := buildSystemPrompt
          let user := buildUserPrompt lastUser top
          match complete system user with
          | .error e =>
            (.text 500 (errBody e),
             [Stage.load, Stage.chunk, Stage.retrieve, Stage.buildSystem,
              Stage.buildUser, Stage.completion])
          | .ok resp =>
            (.json 200 (replyOf resp),
             [Stage.load, Stage.chunk, Stage.retrieve, Stage.buildSystem,
              Stage.buildUser, Stage.completion])

/-! ### Chunker lemmas -/

/-- Every produced piece is the window of width `size` at offset
`k * (sm1 + 1)`. -/
theorem chunkGo_getElem? (size sm1 : Nat) :
    ∀ (fuel : Nat) (cs : List Char), cs.length ≤ fuel →
      ∀ (k : Nat), k < (chunkGo size sm1 fuel cs).length →
        (chunkGo size sm1 fuel cs)[k]? =
          some ((cs.drop (k * (sm1 + 1))).take size) := by
  intro fuel
  induction fuel with
  | zero =>
    intro cs hcs k hk
    cases cs with
    | nil => simp [chunkGo] at hk
    | cons c cs => simp at hcs
  | succ fuel ih =>
    intro cs hcs k hk
    cases cs with
    | nil => simp [chunkGo] at hk
    | cons c cs =>
      simp only [List.length_cons] at hcs
      by_cases hle : cs.length + 1 ≤ size
      · have hchunk : chunkGo size sm1 (fuel + 1) (c :: cs) = [c :: cs] := by
          simp [chunkGo, hle]
        rw [hchunk] at hk ⊢
        have hk0 : k = 0 := by
          simp only [List.length_singleton] at hk
          omega
        subst hk0
        have hlist : (c :: cs).length ≤ size := by
          simpa using hle
        simp [List.take_of_length_le hlist]
      · have hchunk : chunkGo size sm1 (fuel + 1) (c :: cs) =
            (c :: cs).take size :: chunkGo size sm1 fuel (cs.drop sm1) := by
          simp [chunkGo, hle]
        rw [hchunk] at hk ⊢
        cases k with
        | zero => simp
        | succ k =>
          have hlen : (cs.drop sm1).length ≤ fuel := by
            simp only [List.length_drop]
            omega
          have hk2 : k < (chunkGo size sm1 fuel (cs.drop sm1)).length := by
            simpa using hk
          rw [List.getElem?_cons_succ, ih (cs.drop sm1) hlen k hk2, List.drop_drop]
          have harith : (k + 1) * (sm1 + 1) = (sm1 + k * (sm1 + 1)) + 1 := by ring
          rw [harith, List.drop_succ_cons]

/-- Dropping the first `ov` characters of every piece and concatenating
yields the text with its first `ov` characters dropped. -/
theorem chunkGo_drop_flatten (size sm1 ov : Nat) (hstep : ov + (sm1 + 1) = size) :
    ∀ (fuel : Nat) (cs : List Char), cs.length ≤ fuel →
      ((chunkGo size sm1 fuel cs).map (List.drop ov)).flatten = cs.drop ov := by
  intro fuel
  induction fuel with
  | zero =>
    intro cs hcs
    cases cs with
    | nil => simp [chunkGo]
    | cons c cs => simp at hcs
  | succ fuel ih =>
    intro cs hcs
    cases cs with
    | nil => simp [chunkGo]
    | cons c cs =>
      simp only [List.length_cons] at hcs
      by_cases hle : cs.length + 1 ≤ size
      · simp [chunkGo, hle]
      · have hlen : (cs.drop sm1).length ≤ fuel := by
          simp only [List.length_drop]
          omega
        have hrec := ih (cs.drop sm1) hlen
        have hchunk : chunkGo size sm1 (fuel + 1) (c :: cs) =
            (c :: cs).take size :: chunkGo size sm1 fuel (cs.drop sm1) := by
          simp [chunkGo, hle]
        rw [hchunk, List.map_cons, List.flatten_cons, hrec]
        rw [List.drop_drop, List.drop_take]
        have h2 : size - ov = sm1 + 1 := by omega
        have hdd : (c :: cs).drop (sm1 + ov + 1) = ((c :: cs).drop ov).drop (sm1 + 1) := by
          rw [List.drop_drop]
          congr 1
          omega
        calc ((c :: cs).drop ov).take (size - ov) ++ cs.drop (sm1 + ov)
            = ((c :: cs).drop ov).take (size - ov) ++ (c :: cs).drop (sm1 + ov + 1) := by
              rw [List.drop_succ_cons]
          _ = ((c :: cs).drop ov).take (sm1 + 1) ++ ((c :: cs).drop ov).drop (sm1 + 1) := by
              rw [h2, hdd]
          _ = (c :: cs).drop ov := List.take_append_drop _ _

/-- `buildChunks` preserves length. -/
theorem buildChunks_length (lbl : String) :
    ∀ (i : Nat) (ps : List (List Char)), (buildChunks lbl i ps).length = ps.length := by
  intro i ps
  induction ps generalizing i with
  | nil => simp [buildChunks]
  | cons p ps ih => simp [buildChunks, ih]

/-- The `k`-th built chunk carries the `k`-th piece, the label, and index
`i + k`. -/
theorem buildChunks_getElem? (lbl : String) :
    ∀ (ps : List (List Char)) (i : Nat) (k : Nat),
      (buildChunks lbl i ps)[k]? =
        (ps[k]?).map (fun p => ⟨String.mk p, lbl, i + k⟩) := by
  intro ps
  induction ps with
  | nil => intro i k; simp [buildChunks]
  | cons p ps ih =>
    intro i k
    cases k with
    | zero => simp [buildChunks]
    | succ k =>
      simp only [buildChunks, List.getElem?_cons_succ, ih (i + 1) k]
      have harith : i + 1 + k = i + (k + 1) := by omega
      rw [harith]

/-- Projecting the text of every built chunk recovers the raw pieces. -/
theorem buildChunks_map_text (lbl : String) :
    ∀ (i : Nat) (ps : List (List Char)),
      (buildChunks lbl i ps).map (fun c => c.text.data) = ps := by
  intro i ps
  induction ps generalizing i with
  | nil => simp [buildChunks]
  | cons p ps ih => simp [buildChunks, ih]

/-- Non-overlapping reconstruction: the first chunk whole, every later
chunk with its first `ov` (overlapping) characters removed. -/
def reconstruct (ov : Nat) : List (List Char) → List Char
  | [] => []
  | p :: ps => p ++ ((ps.map (List.drop ov)).flatten)

/-- Reconstruction over the raw pieces recovers the original character
list. -/
theorem reconstruct_chunkGo (size sm1 ov : Nat) (hstep : ov + (sm1 + 1) = size) :
    ∀ (fuel : Nat) (cs : List Char), cs.length ≤ fuel →
      reconstruct ov (chunkGo size sm1 fuel cs) = cs := by
  intro fuel cs hcs
  cases fuel with
  | zero =>
    cases cs with
    | nil => simp [chunkGo, reconstruct]
    | cons c cs => simp at hcs
  | succ fuel =>
    cases cs with
    | nil => simp [chunkGo, reconstruct]
    | cons c cs =>
      simp only [List.length_cons] at hcs
      by_cases hle : cs.length + 1 ≤ size
      · have hchunk : chunkGo size sm1 (fuel + 1) (c :: cs) = [c :: cs] := by
          simp [chunkGo, hle]
        simp [hchunk, reconstruct]
      · have hlen : (cs.drop sm1).length ≤ fuel := by
          simp only [List.length_drop]
          omega
        have hrec := chunkGo_drop_flatten size sm1 ov hstep fuel (cs.drop sm1) hlen
        have hchunk : chunkGo size sm1 (fuel + 1) (c :: cs) =
            (c :: cs).take size :: chunkGo size sm1 fuel (cs.drop sm1) := by
          simp [chunkGo, hle]
        rw [hchunk]
        simp only [reconstruct, hrec]
        rw [List.drop_drop]
        have h1 : sm1 + ov + 1 = size := by omega
        calc ((c :: cs).take size) ++ cs.drop (sm1 + ov)
            = ((c :: cs).take size) ++ (c :: cs).drop (sm1 + ov + 1) := by
              rw [List.drop_succ_cons]
          _ = ((c :: cs).take size) ++ (c :: cs).drop size := by rw [h1]
          _ = c :: cs := List.take_append_drop _ _

/-- Claim C2: for every text and configuration with
`chunkOverlap < chunkSize`, `chunkText` succeeds and its `k`-th chunk is
the window of width `chunkSize` at offset `k * (chunkSize - chunkOverlap)`
(the final chunk capturing the tail even when shorter), with ascending
indices and the configured source label; in particular the 15-character
text "AAAAABBBBBCCCCC" with size 10 and overlap 2 yields exactly
"AAAAABBBBB" at index 0 and "BBCCCCC" at index 1 (offset 8), and empty
text yields zero chunks without error. -/
theorem chunkText_window_spec :
    (∀ (text : String) (cfg : ChunkConfig), cfg.chunkOverlap < cfg.chunkSize →
      ∃ cks, chunkText text cfg = .ok cks ∧
        ∀ (k : Nat) (hk : k < cks.length),
          (cks.get ⟨k, hk⟩).text =
            String.mk
              ((text.data.drop (k * (cfg.chunkSize - cfg.chunkOverlap))).take
                cfg.chunkSize) ∧
          (cks.get ⟨k, hk⟩).index = k ∧
          (cks.get ⟨k, hk⟩).sourceLabel = cfg.sourceLabel) ∧
    (∀ lbl : String,
      chunkText "AAAAABBBBBCCCCC" ⟨10, 2, lbl⟩ =
        .ok [⟨"AAAAABBBBB", lbl, 0⟩, ⟨"BBCCCCC", lbl, 1⟩]) ∧
    (∀ cfg : ChunkConfig, cfg.chunkOverlap < cfg.chunkSize →
      chunkText "" cfg = .ok []) := by
  refine ⟨?_, ?_, ?_⟩
  · intro text cfg hov
    have hif : ¬ (cfg.chunkSize ≤ cfg.chunkOverlap) := by omega
    refine ⟨_, by rw [chunkText, if_neg hif], ?_⟩
    intro k hk
    have hk2 : k < (chunkGo cfg.chunkSize (cfg.chunkSize - cfg.chunkOverlap - 1)
        text.data.length text.data).length := by
      have := buildChunks_length cfg.sourceLabel 0
        (chunkGo cfg.chunkSize (cfg.chunkSize - cfg.chunkOverlap - 1)
          text.data.length text.data)
      omega
    have hsome :
        some ((buildChunks cfg.sourceLabel 0
            (chunkGo cfg.chunkSize (cfg.chunkSize - cfg.chunkOverlap - 1)
              text.data.length text.data)).get ⟨k, hk⟩) =
          some (⟨String.mk ((text.data.drop
              (k * (cfg.chunkSize - cfg.chunkOverlap - 1 + 1))).take cfg.chunkSize),
            cfg.sourceLabel, 0 + k⟩ : Chunk) := by
      rw [List.get_eq_getElem, ← List.getElem?_eq_getElem hk,
        buildChunks_getElem? cfg.sourceLabel _ 0 k,
        chunkGo_getElem? cfg.chunkSize (cfg.chunkSize - cfg.chunkOverlap - 1)
          text.data.length text.data (Nat.le_refl _) k hk2]
      rfl
    have heq := Option.some.inj hsome
    have harith : cfg.chunkSize - cfg.chunkOverlap - 1 + 1 =
        cfg.chunkSize - cfg.chunkOverlap := by omega
    rw [heq, harith]
    refine ⟨rfl, ?_, rfl⟩
    show 0 + k = k
    omega
  · intro lbl
    rfl
  · intro cfg hov
    have hif : ¬ (cfg.chunkSize ≤ cfg.chunkOverlap) := by omega
    rw [chunkText, if_neg hif]
    rfl

/-- Claim C2 witness: instantiation at the text "AAAAABBBBBCCCCC" with
chunk size 10 and overlap 2. -/
theorem chunkText_window_spec_witness :
    (2 : Nat) < 10 ∧
    ∃ cks, chunkText "AAAAABBBBBCCCCC" ⟨10, 2, "doc"⟩ = .ok cks ∧
      ∀ (k : Nat) (hk : k < cks.length),
        (cks.get ⟨k, hk⟩).text =
          String.mk
            (((String.data "AAAAABBBBBCCCCC").drop (k * (10 - 2))).take 10) ∧
        (cks.get ⟨k, hk⟩).index = k ∧
        (cks.get ⟨k, hk⟩).sourceLabel = "doc" :=
  ⟨by decide, chunkText_window_spec.1 "AAAAABBBBBCCCCC" ⟨10, 2, "doc"⟩ (by decide)⟩

/-- Claim C3: for every text and valid configuration, concatenating the
first chunk with every later chunk stripped of its first `chunkOverlap`
(overlapping) characters reconstructs the text exactly; no character is
dropped by chunking. -/
theorem chunkText_reconstruct :
    ∀ (text : String) (cfg : ChunkConfig), cfg.chunkOverlap < cfg.chunkSize →
      ∃ cks, chunkText text cfg = .ok cks ∧
        String.mk (reconstruct cfg.chunkOverlap (cks.map (fun c => c.text.data))) =
          text := by
  intro text cfg hov
  have hif : ¬ (cfg.chunkSize ≤ cfg.chunkOverlap) := by omega
  refine ⟨_, by rw [chunkText, if_neg hif], ?_⟩
  rw [buildChunks_map_text]
  have hstep : cfg.chunkOverlap + (cfg.chunkSize - cfg.chunkOverlap - 1 + 1) =
      cfg.chunkSize := by omega
  rw [reconstruct_chunkGo cfg.chunkSize (cfg.chunkSize - cfg.chunkOverlap - 1)
    cfg.chunkOverlap hstep text.data.length text.data (Nat.le_refl _)]

/-- Claim C3 witness: instantiation at "AAAAABBBBBCCCCC" with size 10 and
overlap 2. -/
theorem chunkText_reconstruct_witness :
    (2 : Nat) < 10 ∧
    ∃ cks, chunkText "AAAAABBBBBCCCCC" ⟨10, 2, "doc"⟩ = .ok cks ∧
      String.mk (reconstruct 2 (cks.map (fun c => c.text.data))) =
        "AAAAABBBBBCCCCC" :=
  ⟨by decide, chunkText_reconstruct "AAAAABBBBBCCCCC" ⟨10, 2, "doc"⟩ (by decide)⟩

/-- Claim C5: for every configuration with `chunkOverlap ≥ chunkSize` the
chunker rejects the configuration with a `ConfigurationError` (it
terminates rather than looping, being a total function). -/
theorem chunkText_config_error :
    ∀ (text : String) (cfg : ChunkConfig), cfg.chunkSize ≤ cfg.chunkOverlap →
      chunkText text cfg =
        .error (.configurationError configurationErrorMessage) := by
  intro text cfg h
  rw [chunkText, if_pos h]

/-- Claim C5 witness: instantiation at overlap 5 ≥ size 3. -/
theorem chunkText_config_error_witness :
    (3 : Nat) ≤ 5 ∧
    chunkText "abc" ⟨3, 5, "doc"⟩ =
      .error (.configurationError configurationErrorMessage) :=
  ⟨by decide, chunkText_config_error "abc" ⟨3, 5, "doc"⟩ (by decide)⟩

/-! ### Retriever lemmas -/

/-- Number of chunks with nonzero score against a query. -/
def nonzeroCount (query : String) (chunks : List Chunk) : Nat :=
  (chunks.filter (fun c => scoreChunk (tokenize query) c != 0)).length

/-- Sorting does not change the number of chunks. -/
theorem length_insertionSort (r : Chunk → Chunk → Prop) [DecidableRel r]
    (l : List Chunk) : (List.insertionSort r l).length = l.length :=
  (List.perm_insertionSort r l).length_eq

/-- The retriever returns exactly `min K (number of nonzero-scoring
chunks)` results. -/
theorem retrieve_length (query : String) (chunks : List Chunk) (k : Int) :
    (retrieveTopChunksKeyword query chunks k).length =
      min k.toNat (nonzeroCount query chunks) := by
  simp [retrieveTopChunksKeyword, nonzeroCount, List.length_take,
    length_insertionSort]

/-- Claim C4: retrieval output never exceeds `K` chunks; it is strictly
shorter than `K` only when fewer than `K` chunks score nonzero (zero
scorers are never used as padding); `K ≤ 0` or an empty collection yields
the empty sequence rather than an error. -/
theorem retrieve_respects_k :
    ∀ (query : String) (chunks : List Chunk) (k : Int),
      (retrieveTopChunksKeyword query chunks k).length ≤ k.toNat ∧
      ((retrieveTopChunksKeyword query chunks k).length < k.toNat →
        nonzeroCount query chunks < k.toNat) ∧
      (k ≤ 0 → retrieveTopChunksKeyword query chunks k = []) ∧
      (chunks = [] → retrieveTopChunksKeyword query chunks k = []) := by
  intro query chunks k
  refine ⟨?_, ?_, ?_, ?_⟩
  · rw [retrieve_length]
    exact Nat.min_le_left _ _
  · rw [retrieve_length]
    intro h
    omega
  · intro h
    have h0 : k.toNat = 0 := Int.toNat_of_nonpos h
    simp [retrieveTopChunksKeyword, h0]
  · intro h
    subst h
    simp [retrieveTopChunksKeyword, List.insertionSort]

/-- Claim C4 witness: a query over a single matching chunk with K = 6
returns exactly that chunk and respects every bound. -/
theorem retrieve_respects_k_witness :
    (retrieveTopChunksKeyword "what is a vector"
        [⟨"a vector has direction", "d", 0⟩] 6).length ≤ (6 : Int).toNat ∧
    ((retrieveTopChunksKeyword "what is a vector"
        [⟨"a vector has direction", "d", 0⟩] 6).length < (6 : Int).toNat →
      nonzeroCount "what is a vector" [⟨"a vector has direction", "d", 0⟩] <
        (6 : Int).toNat) ∧
    ((6 : Int) ≤ 0 → retrieveTopChunksKeyword "what is a vector"
        [⟨"a vector has direction", "d", 0⟩] 6 = []) ∧
    ([⟨"a vector has direction", "d", 0⟩] = ([] : List Chunk) →
      retrieveTopChunksKeyword "what is a vector"
        [⟨"a vector has direction", "d", 0⟩] 6 = []) :=
  retrieve_respects_k "what is a vector" [⟨"a vector has direction", "d", 0⟩] 6

/-- Inserting into a list contributes the new element directly after the
strictly-greater region, so score-level filtering sees it appended in
front of the equal-scored elements it precedes. -/
theorem filter_orderedInsert (f : Chunk → Nat) (s : Nat) (a : Chunk) :
    ∀ (l : List Chunk),
      (List.orderedInsert (fun x y => f y ≤ f x) a l).filter
          (fun c => f c == s) =
        (if f a == s then [a] else []) ++ l.filter (fun c => f c == s) := by
  intro l
  induction l with
  | nil =>
    simp only [List.orderedInsert]
    by_cases ha : f a == s <;> simp [List.filter_cons, ha]
  | cons b bs ih =>
    by_cases hr : f b ≤ f a
    · rw [List.orderedInsert, if_pos hr]
      by_cases ha : f a == s <;> by_cases hb : f b == s <;>
        simp [List.filter_cons, ha, hb]
    · rw [List.orderedInsert, if_neg hr]
      by_cases ha : f a == s <;> by_cases hb : f b == s
      · exfalso
        have ha2 : f a = s := by simpa using ha
        have hb2 : f b = s := by simpa using hb
        omega
      · simp [List.filter_cons, ha, hb, ih]
      · simp [List.filter_cons, ha, hb, ih]
      · simp [List.filter_cons, ha, hb, ih]

/-- The stable sort keeps the relative order of equal-scored chunks: the
score-`s` slice of the sorted list is the score-`s` slice of the input. -/
theorem filter_insertionSort (f : Chunk → Nat) (s : Nat) :
    ∀ (l : List Chunk),
      (List.insertionSort (fun x y => f y ≤ f x) l).filter
          (fun c => f c == s) =
        l.filter (fun c => f c == s) := by
  intro l
  induction l with
  | nil => simp [List.insertionSort]
  | cons b bs ih =>
    rw [List.insertionSort, filter_orderedInsert f s b _, ih]
    by_cases hb : f b == s <;> simp [List.filter_cons, hb]

/-- A conjunctive filter is a sublist of the filter by the first
conjunct. -/
theorem filter_and_sublist (p q : Chunk → Bool) :
    ∀ (l : List Chunk), (l.filter (fun a => p a && q a)) <+ l.filter p := by
  intro l
  induction l with
  | nil => simp
  | cons a l ih =>
    rw [List.filter_cons, List.filter_cons]
    cases hp : p a with
    | false =>
      simp only [hp, Bool.false_and, Bool.false_eq_true, ite_false]
      exact ih
    | true =>
      cases hq : q a with
      | false =>
        simp only [hp, hq, Bool.true_and, Bool.false_eq_true, ite_false,
          ite_true]
        exact ih.cons a
      | true =>
        simp only [hp, hq, Bool.true_and, ite_true]
        exact ih.cons₂ a

/-- Claim C6: retrieval is deterministic (as a pure function, two calls on
identical input agree) and its tie-break is stable: for every score `s`,
the chunks of score `s` in the output appear as an in-order sublist of the
chunks of score `s` in the input, so equal-scored chunks keep their
original relative order. -/
theorem retrieve_deterministic_stable :
    (∀ (query : String) (chunks : List Chunk) (k : Int),
      retrieveTopChunksKeyword query chunks k =
        retrieveTopChunksKeyword query chunks k) ∧
    (∀ (query : String) (chunks : List Chunk) (k : Int) (s : Nat),
      (retrieveTopChunksKeyword query chunks k).filter
          (fun c => scoreChunk (tokenize query) c == s) <+
        chunks.filter (fun c => scoreChunk (tokenize query) c == s)) := by
  constructor
  · intro query chunks k
    rfl
  · intro query chunks k s
    have hunfold : retrieveTopChunksKeyword query chunks k =
        ((chunks.filter (fun c => scoreChunk (tokenize query) c != 0)).insertionSort
          (fun a b =>
            scoreChunk (tokenize query) b ≤ scoreChunk (tokenize query) a)).take
          k.toNat := rfl
    rw [hunfold]
    have h1 : (((chunks.filter
          (fun c => scoreChunk (tokenize query) c != 0)).insertionSort
          (fun a b =>
            scoreChunk (tokenize query) b ≤ scoreChunk (tokenize query) a)).take
          k.toNat).filter (fun c => scoreChunk (tokenize query) c == s) <+
        ((chunks.filter
          (fun c => scoreChunk (tokenize query) c != 0)).insertionSort
          (fun a b =>
            scoreChunk (tokenize query) b ≤ scoreChunk (tokenize query) a)).filter
          (fun c => scoreChunk (tokenize query) c == s) :=
      List.Sublist.filter _ (List.take_sublist _ _)
    rw [filter_insertionSort (scoreChunk (tokenize query)) s,
      List.filter_filter] at h1
    exact h1.trans (filter_and_sublist _ _ chunks)

/-! ### Scope-classifier lemmas -/

/-- Whitespace characters are not word characters. -/
theorem whitespace_not_word (c : Char) (h : c.isWhitespace = true) :
    isWordChar c = false := by
  have h2 : c = ' ' ∨ c = '\t' ∨ c = '\x0d' ∨ c = '\n' := by
    simpa [Char.isWhitespace, or_assoc] using h
  rcases h2 with h1 | h1 | h1 | h1 <;> subst h1 <;> decide

/-- A string with no word characters tokenizes to nothing. -/
theorem tokenizeGo_no_word :
    ∀ (cs : List Char), (∀ c ∈ cs, isWordChar c = false) →
      tokenizeGo cs [] = [] := by
  intro cs h
  induction cs with
  | nil => rfl
  | cons c cs ih =>
    have hc : isWordChar c = false := h c (by simp)
    simp only [tokenizeGo, hc, Bool.false_eq_true, ite_false, List.isEmpty_nil,
      ite_true]
    exact ih (fun d hd => h d (by simp [hd]))

/-- Claim C9: the scope classifier is a total pure function: on every
string it returns a well-formed decision (the fixed non-empty refusal text
accompanies every rejection), and on empty or whitespace-only input it
fails safe by refusing rather than crashing. -/
theorem classifyScope_total_failsafe :
    (∀ s : String,
      (classifyScope s).allowed = true ∨
        ((classifyScope s).allowed = false ∧
          (classifyScope s).refusal = scopeRefusalText)) ∧
    (∀ s : String, s.data.all Char.isWhitespace = true →
      (classifyScope s).allowed = false ∧
        (classifyScope s).refusal ≠ "") := by
  constructor
  · intro s
    rw [classifyScope]
    by_cases h1 : (tokenize s).isEmpty = true
    · rw [if_pos h1]
      right
      exact ⟨rfl, rfl⟩
    · rw [if_neg h1]
      by_cases h2 : ((tokenize s).any fun t => denyTerms.contains t) = true
      · rw [if_pos h2]
        right
        exact ⟨rfl, rfl⟩
      · rw [if_neg h2]
        by_cases h3 : ((tokenize s).any fun t => allowTerms.contains t) = true
        · rw [if_pos h3]
          left
          rfl
        · rw [if_neg h3]
          right
          exact ⟨rfl, rfl⟩
  · intro s hws
    have hnw : ∀ c ∈ s.data, isWordChar c = false := by
      intro c hc
      exact whitespace_not_word c (by simpa using List.all_eq_true.mp hws c hc)
    have htok : tokenize s = [] := tokenizeGo_no_word s.data hnw
    rw [classifyScope, htok]
    exact ⟨rfl, by decide⟩

/-- Claim C9 witness: the classifier refuses the whitespace-only string
consisting of one space, with a non-empty refusal. -/
theorem classifyScope_total_failsafe_witness :
    (String.data " ").all Char.isWhitespace = true ∧
    ((classifyScope " ").allowed = false ∧ (classifyScope " ").refusal ≠ "") :=
  ⟨by decide, classifyScope_total_failsafe.2 " " (by decide)⟩

/-! ### Handler lemmas and claims -/

/-- The handler's stage trace is always one of four prefixes of the full
pipeline. -/
theorem post_trace_cases :
    ∀ (parse : Except (Option String) (Option (List ChatMsg)))
      (loadResult : Except (Option String) (List Document))
      (complete : String → String → Except (Option String) CompletionResp),
      (POST parse loadResult complete).2 = [] ∨
      (POST parse loadResult complete).2 = [Stage.load] ∨
      (POST parse loadResult complete).2 = [Stage.load, Stage.chunk] ∨
      (POST parse loadResult complete).2 =
        [Stage.load, Stage.chunk, Stage.retrieve, Stage.buildSystem,
         Stage.buildUser, Stage.completion] := by
  intro parse loadResult complete
  rcases parse with e | mm
  · left
    rfl
  · simp only [POST]
    by_cases h : (!(classifyScope (lastUserMessage (mm.getD []))).allowed) = true
    · rw [if_pos h]
      left
      rfl
    · rw [if_neg h]
      rcases loadResult with e | docs
      · right
        left
        rfl
      · dsimp only
        cases hc : chunkAllDocs docs with
        | error ce =>
          right
          right
          left
          rfl
        | ok chunks =>
          dsimp only
          cases hcc : complete buildSystemPrompt
              (buildUserPrompt (lastUserMessage (mm.getD []))
                (retrieveTopChunksKeyword (lastUserMessage (mm.getD [])) chunks 6)) with
          | error e =>
            right
            right
            right
            rfl
          | ok resp =>
            right
            right
            right
            rfl

/-- Claim C1: when the latest user message is classified out of scope, the
handler replies with the refusal text as a success JSON body, and no
downstream stage (loading, chunking, retrieval, prompt building,
completion) runs. -/
theorem scope_refusal_short_circuit :
    ∀ (mm : Option (List ChatMsg))
      (loadResult : Except (Option String) (List Document))
      (complete : String → String → Except (Option String) CompletionResp),
      (classifyScope (lastUserMessage (mm.getD []))).allowed = false →
      POST (.ok mm) loadResult complete =
        (.json 200 (classifyScope (lastUserMessage (mm.getD []))).refusal, []) := by
  intro mm loadResult complete h
  simp [POST, h]

/-- Claim C1 witness: an off-topic request about pizza toppings is refused
without invoking any downstream stage. -/
theorem scope_refusal_short_circuit_witness :
    (classifyScope (lastUserMessage
        ((some [⟨Role.user, "whats the best pizza topping"⟩] :
          Option (List ChatMsg)).getD []))).allowed = false ∧
    POST (.ok (some [⟨Role.user, "whats the best pizza topping"⟩])) (.ok [])
        (fun _ _ => .ok ⟨[]⟩) =
      (.json 200 (classifyScope (lastUserMessage
        ((some [⟨Role.user, "whats the best pizza topping"⟩] :
          Option (List ChatMsg)).getD []))).refusal, []) :=
  ⟨by decide,
    scope_refusal_short_circuit (some [⟨Role.user, "whats the best pizza topping"⟩])
      (.ok []) (fun _ _ => .ok ⟨[]⟩) (by decide)⟩

/-- Claim C7 counterexample: a malformed request body (the embedded
`req.json()` failure) is answered with status 500 carrying the raw
exception message, not with a client-facing 4xx status. -/
theorem post_malformed_counterexample :
    (POST (.error (some "SyntaxError: unexpected token")) (.ok [])
        (fun _ _ => .ok ⟨[]⟩)).1 =
      .text 500 "SyntaxError: unexpected token" ∧
    ¬((POST (.error (some "SyntaxError: unexpected token")) (.ok [])
        (fun _ _ => .ok ⟨[]⟩)).1.status < 500 ∧
      400 ≤ (POST (.error (some "SyntaxError: unexpected token")) (.ok [])
        (fun _ _ => .ok ⟨[]⟩)).1.status) := by
  exact ⟨rfl, by decide⟩

/-- Claim C7 (amended): every failure—malformed request, load error, or
completion-service error—is surfaced as a plain-text response with status
500 whose body is the exception message (or "Server error" when absent);
there is no client-facing 4xx distinction and the message is passed
through verbatim; the completion stage is never run more than once per
request (no retry). -/
theorem post_failure_propagation :
    (∀ (e : Option String) (loadResult : Except (Option String) (List Document))
      (complete : String → String → Except (Option String) CompletionResp),
      POST (.error e) loadResult complete = (.text 500 (errBody e), [])) ∧
    (∀ (mm : Option (List ChatMsg)) (e : Option String)
      (complete : String → String → Except (Option String) CompletionResp),
      (classifyScope (lastUserMessage (mm.getD []))).allowed = true →
      POST (.ok mm) (.error e) complete =
        (.text 500 (errBody e), [Stage.load])) ∧
    (∀ (mm : Option (List ChatMsg)) (docs : List Document)
      (chunks : List Chunk) (e : Option String)
      (complete : String → String → Except (Option String) CompletionResp),
      (classifyScope (lastUserMessage (mm.getD []))).allowed = true →
      chunkAllDocs docs = .ok chunks →
      complete buildSystemPrompt
          (buildUserPrompt (lastUserMessage (mm.getD []))
            (retrieveTopChunksKeyword (lastUserMessage (mm.getD [])) chunks 6)) =
        .error e →
      POST (.ok mm) (.ok docs) complete =
        (.text 500 (errBody e),
         [Stage.load, Stage.chunk, Stage.retrieve, Stage.buildSystem,
          Stage.buildUser, Stage.completion])) ∧
    (∀ (parse : Except (Option String) (Option (List ChatMsg)))
      (loadResult : Except (Option String) (List Document))
      (complete : String → String → Except (Option String) CompletionResp),
      ((POST parse loadResult complete).2.count Stage.completion) ≤ 1) := by
  refine ⟨?_, ?_, ?_, ?_⟩
  · intro e loadResult complete
    rfl
  · intro mm e complete h
    simp [POST, h]
  · intro mm docs chunks e complete h hc hcc
    simp [POST, h, hc, hcc]
  · intro parse loadResult complete
    rcases post_trace_cases parse loadResult complete with h | h | h | h <;>
      rw [h] <;> decide

/-- Claim C7 (amended) witness: a load failure on an in-scope request is
surfaced as a plain-text 500 carrying the raw message, after the load
stage only. -/
theorem post_failure_propagation_witness :
    (classifyScope (lastUserMessage
        ((some [⟨Role.user, "what is a force"⟩] :
          Option (List ChatMsg)).getD []))).allowed = true ∧
    POST (.ok (some [⟨Role.user, "what is a force"⟩]))
        (.error (some "ENOENT: /content/lessons"))
        (fun _ _ => .ok ⟨[]⟩) =
      (.text 500 (errBody (some "ENOENT: /content/lessons")), [Stage.load]) :=
  ⟨by decide,
    post_failure_propagation.2.1 (some [⟨Role.user, "what is a force"⟩])
      (some "ENOENT: /content/lessons") (fun _ _ => .ok ⟨[]⟩) (by decide)⟩

/-- Claim C8: the pipeline consults only the most recent user message:
message lists agreeing on it induce the same scope decision, the same
retrieval results, the same built user prompt, and the same handler
response, whatever the earlier turns were. -/
theorem last_user_determines_pipeline :
    ∀ (msgs1 msgs2 : List ChatMsg),
      lastUserMessage msgs1 = lastUserMessage msgs2 →
      classifyScope (lastUserMessage msgs1) =
        classifyScope (lastUserMessage msgs2) ∧
      (∀ (chunks : List Chunk) (k : Int),
        retrieveTopChunksKeyword (lastUserMessage msgs1) chunks k =
          retrieveTopChunksKeyword (lastUserMessage msgs2) chunks k) ∧
      (∀ top : List Chunk,
        buildUserPrompt (lastUserMessage msgs1) top =
          buildUserPrompt (lastUserMessage msgs2) top) ∧
      (∀ (loadResult : Except (Option String) (List Document))
        (complete : String → String → Except (Option String) CompletionResp),
        POST (.ok (some msgs1)) loadResult complete =
          POST (.ok (some msgs2)) loadResult complete) := by
  intro msgs1 msgs2 h
  refine ⟨by rw [h], fun chunks k => by rw [h], fun top => by rw [h],
    fun loadResult complete => ?_⟩
  simp only [POST, Option.getD_some]
  rw [h]

/-- Claim C8 witness: a bare question and the same question surrounded by
earlier turns produce identical handler responses. -/
theorem last_user_determines_pipeline_witness :
    lastUserMessage [⟨Role.user, "what is a force"⟩] =
      lastUserMessage [⟨Role.assistant, "hello"⟩, ⟨Role.user, "what is a force"⟩,
        ⟨Role.assistant, "sure"⟩] ∧
    (∀ (loadResult : Except (Option String) (List Document))
      (complete : String → String → Except (Option String) CompletionResp),
      POST (.ok (some [⟨Role.user, "what is a force"⟩])) loadResult complete =
        POST (.ok (some [⟨Role.assistant, "hello"⟩, ⟨Role.user, "what is a force"⟩,
          ⟨Role.assistant, "sure"⟩])) loadResult complete) :=
  ⟨by decide,
    (last_user_determines_pipeline [⟨Role.user, "what is a force"⟩]
      [⟨Role.assistant, "hello"⟩, ⟨Role.user, "what is a force"⟩,
        ⟨Role.assistant, "sure"⟩] (by decide)).2.2.2⟩

/-- Claim C10: when the completion service succeeds but its first choice
carries no message content (no choices, or missing message, or null
content), the handler still succeeds and replies with exactly
"No response.". -/
theorem post_no_content_reply :
    ∀ (mm : Option (List ChatMsg)) (docs : List Document)
      (chunks : List Chunk)
      (complete : String → String → Except (Option String) CompletionResp)
      (resp : CompletionResp),
      (classifyScope (lastUserMessage (mm.getD []))).allowed = true →
      chunkAllDocs docs = .ok chunks →
      complete buildSystemPrompt
          (buildUserPrompt (lastUserMessage (mm.getD []))
            (retrieveTopChunksKeyword (lastUserMessage (mm.getD [])) chunks 6)) =
        .ok resp →
      ((resp.choices.head?).bind (fun c => c.message)).bind
          (fun m => m.content) = none →
      POST (.ok mm) (.ok docs) complete =
        (.json 200 "No response.",
         [Stage.load, Stage.chunk, Stage.retrieve, Stage.buildSystem,
          Stage.buildUser, Stage.completion]) := by
  intro mm docs chunks complete resp h hc hcc hnone
  simp [POST, h, hc, hcc, replyOf, hnone]

/-- Claim C10 witness: an in-scope request whose completion returns zero
choices yields the reply "No response.". -/
theorem post_no_content_reply_witness :
    (classifyScope (lastUserMessage
        ((some [⟨Role.user, "what is a force"⟩] :
          Option (List ChatMsg)).getD []))).allowed = true ∧
    chunkAllDocs [] = .ok [] ∧
    POST (.ok (some [⟨Role.user, "what is a force"⟩])) (.ok [])
        (fun _ _ => .ok ⟨[]⟩) =
      (.json 200 "No response.",
       [Stage.load, Stage.chunk, Stage.retrieve, Stage.buildSystem,
        Stage.buildUser, Stage.completion]) :=
  ⟨by decide, rfl,
    post_no_content_reply (some [⟨Role.user, "what is a force"⟩]) [] []
      (fun _ _ => .ok ⟨[]⟩) ⟨[]⟩ (by decide) rfl rfl rfl⟩

end PurePhysics
